import Mathlib

/-!
Verification of the Agent File Citation and Secure Prefetch subsystem.

This file gives a shallow embedding, in Lean, of the subsystem's core
functions, translated from the JavaScript/TypeScript sources:

* `parseFileSearchResults`, `extractOriginalFilename`,
  `extractFileIdFromFilename` and the file-diversity selection of
  `processAgentResponse` (server, `processAgentResponse.js`);
* `hasFileInAttachments`, `validateAgentFileAccess` and
  `generateAgentSourceUrl`, in both the middleware variant
  (`server/middleware/validate/agentFileAccess.js`, the one wired into the
  file routes) and the service variant (`server/services/Files/agents.js`);
* `MessageFileReference.captureReferences` (citation recording);
* the client prefetch selectors (`prefetchCandidatesSelector`,
  `agentSourcePrefetchSelector`, `predictiveCacheSelector`,
  `smartPrefetchOrchestratorSelector`) and `hasValidDownloadUrl`.

Modelling conventions: JavaScript strings are `List Char`; JavaScript
numbers are `ℚ` (or `Int` where the code only ever holds integers or
millisecond timestamps); `undefined`/`null` fields are `Option`;
asynchronous store lookups are explicit arguments (lists of documents),
and external calls such as the S3 signer are passed in as their outcome
(`Option` result, `none` meaning the call threw).  JavaScript truthiness
of strings (empty string is falsy) and of numbers (0 and NaN are falsy)
is modelled explicitly at each use site.
-/

/-- JavaScript strings are modelled as lists of characters. -/
abbrev Str := List Char

/-- ASCII whitespace recognised by JavaScript `trim` and by `\s` in the
regular expressions of the parser (space, tab, newline, carriage return,
vertical tab, form feed; exotic Unicode space classes are not used by the
parsed payloads). -/
def jsWhitespace (c : Char) : Bool :=
  c == ' ' || c == '\t' || c == '\n' || c == '\r' || c == '\x0b' || c == '\x0c'

/-- Drop leading JavaScript whitespace. -/
def dropLeadingWS : Str → Str
  | [] => []
  | c :: cs => if jsWhitespace c then dropLeadingWS cs else c :: cs

/-- JavaScript `String.prototype.trim`. -/
def jsTrim (s : Str) : Str :=
  (dropLeadingWS (dropLeadingWS s).reverse).reverse

/-- JavaScript `String.prototype.startsWith`. -/
def strStartsWith : Str → Str → Bool
  | _, [] => true
  | [], _ :: _ => false
  | c :: cs, p :: ps => c == p && strStartsWith cs ps

/-- Index of the first occurrence of `pat` in a string (the scan of
`String.prototype.indexOf` / a regex engine's leftmost-match rule). -/
def findSub (pat : Str) : Str → Option Nat
  | [] => if strStartsWith [] pat then some 0 else none
  | c :: cs =>
    if strStartsWith (c :: cs) pat then some 0
    else (findSub pat cs).map (· + 1)

/-- JavaScript `String.prototype.includes`. -/
def hasSub (s pat : Str) : Bool := (findSub pat s).isSome

/-- Decimal digit test. -/
def isDigitChar (c : Char) : Bool := '0' ≤ c && c ≤ '9'

/-- Lower-case hexadecimal digit test, as used by the character class
`[a-f0-9]` of the internal-filename pattern. -/
def isHexLowerChar (c : Char) : Bool :=
  isDigitChar c || ('a' ≤ c && c ≤ 'f')

/-- Hexadecimal digit test (both cases), for `parseInt` 0x literals. -/
def isHexChar (c : Char) : Bool :=
  isDigitChar c || ('a' ≤ c && c ≤ 'f') || ('A' ≤ c && c ≤ 'F')

/-- Split off the longest leading run of decimal digits, returning their
values and the rest of the string. -/
def splitDigits : Str → List Nat × Str
  | [] => ([], [])
  | c :: cs =>
    if isDigitChar c then
      let p := splitDigits cs
      ((c.toNat - 48) :: p.1, p.2)
    else ([], c :: cs)

/-- Split off the longest leading run of hexadecimal digits. -/
def splitHexDigits : Str → List Nat × Str
  | [] => ([], [])
  | c :: cs =>
    if isHexChar c then
      let p := splitHexDigits cs
      (((if c.toNat ≥ 97 then c.toNat - 87 else if c.toNat ≥ 65 then c.toNat - 55 else c.toNat - 48)) :: p.1, p.2)
    else ([], c :: cs)

/-- Value of a digit list in the given base. -/
def digitsVal (base : Nat) (ds : List Nat) : Nat :=
  ds.foldl (fun acc d => base * acc + d) 0

/-- JavaScript `parseInt(s)` with no radix argument: skip leading
whitespace, optional sign, then a `0x`/`0X` hexadecimal literal or a run
of decimal digits; trailing garbage is ignored; `none` models `NaN`. -/
def jsParseInt (s : Str) : Option Int :=
  let s1 := dropLeadingWS s
  let sgn : Int := match s1 with
    | '-' :: _ => -1
    | _ => 1
  let s2 : Str := match s1 with
    | '-' :: r => r
    | '+' :: r => r
    | r => r
  match s2 with
  | '0' :: x :: r =>
    if (x == 'x' || x == 'X') && (match r with
        | c :: _ => isHexChar c
        | [] => false) then
      some (sgn * (digitsVal 16 (splitHexDigits r).1 : Nat))
    else
      let p := splitDigits s2
      if p.1 = [] then none else some (sgn * (digitsVal 10 p.1 : Nat))
  | _ =>
    let p := splitDigits s2
    if p.1 = [] then none else some (sgn * (digitsVal 10 p.1 : Nat))

/-- Mantissa value `int.frac` as a rational. -/
def mantissaVal (ip fp : List Nat) : ℚ :=
  mkRat (digitsVal 10 ip) 1 + mkRat (digitsVal 10 fp) (10 ^ fp.length)

/-- Apply a trailing `e`/`E` exponent if present (JavaScript ignores the
exponent marker when no digits follow it). -/
def applyExp (m : ℚ) : Str → ℚ
  | e :: rest =>
    if e == 'e' || e == 'E' then
      let esgn : Int := match rest with
        | '-' :: _ => -1
        | _ => 1
      let r2 : Str := match rest with
        | '-' :: r => r
        | '+' :: r => r
        | r => r
      let ed := (splitDigits r2).1
      if ed = [] then m
      else if esgn < 0 then m * mkRat 1 (10 ^ digitsVal 10 ed)
      else m * mkRat (10 ^ digitsVal 10 ed : Nat) 1
    else m
  | [] => m

/-- JavaScript `parseFloat`: leading whitespace, optional sign, decimal
mantissa with optional fraction, optional exponent; `none` models `NaN`.
(The `Infinity` literal accepted by `parseFloat` has no rational value
and does not occur in the tool-output payloads; it is not modelled.) -/
def jsParseFloat (s : Str) : Option ℚ :=
  let s1 := dropLeadingWS s
  let sgn : ℚ := match s1 with
    | '-' :: _ => -1
    | _ => 1
  let s2 : Str := match s1 with
    | '-' :: r => r
    | '+' :: r => r
    | r => r
  let ipp := splitDigits s2
  match ipp.2 with
  | '.' :: r2 =>
    let fpp := splitDigits r2
    if ipp.1 = [] ∧ fpp.1 = [] then none
    else some (sgn * applyExp (mantissaVal ipp.1 fpp.1) fpp.2)
  | r1 =>
    if ipp.1 = [] then none else some (sgn * applyExp (mantissaVal ipp.1 []) r1)

/-- Split a string on a separator character (JavaScript `split('\n')`). -/
def splitCharAux (sep : Char) : Str → Str → List Str
  | acc, [] => [acc.reverse]
  | acc, x :: xs =>
    if x == sep then acc.reverse :: splitCharAux sep [] xs
    else splitCharAux sep (x :: acc) xs

/-- JavaScript `s.split(sep)` for a single-character separator. -/
def splitChar (sep : Char) (s : Str) : List Str := splitCharAux sep [] s

/-! ## Result Parser (`parseFileSearchResults` and helpers) -/

/-- Index of the last occurrence of `c` in a string. -/
def lastIdxOf (c : Char) (s : Str) : Option Nat :=
  (findSub [c] s.reverse).map (fun i => s.length - 1 - i)

/-- Length of a section separator matched at the head of the string, if
any.  The separator regex of the parser is `\n\s*\n|\n---\n`: the first
alternative matches a newline, a greedy run of whitespace, then a final
newline (so it spans up to the last newline of the whitespace run that
follows the initial newline); the second alternative is the literal
`\n---\n`, tried only when the first fails at this position. -/
def sepAt (l : Str) : Option Nat :=
  match l with
  | '\n' :: rest =>
    let run := rest.takeWhile jsWhitespace
    match lastIdxOf '\n' run with
    | some p => some (p + 2)
    | none => if strStartsWith rest (("---\n").data) then some 5 else none
  | _ => none

/-- Worker for `splitSections`; the fuel starts at the string length and
dominates the number of characters still to scan, so the fuel-exhausted
branch is never reached. -/
def splitSectionsAux : Nat → Str → Str → List Str
  | 0, acc, _ => [acc.reverse]
  | _ + 1, acc, [] => [acc.reverse]
  | fuel + 1, acc, l@(c :: cs) =>
    match sepAt l with
    | some n => acc.reverse :: splitSectionsAux fuel [] (l.drop n)
    | none => splitSectionsAux fuel (c :: acc) cs

/-- JavaScript `dataToProcess.split(/\n\s*\n|\n---\n/)`. -/
def splitSections (s : Str) : List Str := splitSectionsAux s.length [] s

/-- Sentinel opening the hidden internal-data block (followed by the
literal newline required by the extraction regex). -/
def internalStartMarker : Str := ("<!-- INTERNAL_DATA_START -->\n").data

/-- Sentinel closing the hidden internal-data block (preceded by the
literal newline required by the extraction regex). -/
def internalEndMarker : Str := ("\n<!-- INTERNAL_DATA_END -->").data

/-- The regex match
`formattedResults.match(/<!-- INTERNAL_DATA_START -->\n(.*?)\n<!-- INTERNAL_DATA_END -->/s)`:
leftmost occurrence of the start sentinel, then the shortest body up to
the next end sentinel.  (If no end sentinel follows the first start
sentinel then none follows any later one either, so the whole match
fails.) -/
def extractInternalData (s : Str) : Option Str :=
  match findSub internalStartMarker s with
  | none => none
  | some i =>
    let after := s.drop (i + internalStartMarker.length)
    match findSub internalEndMarker after with
    | none => none
    | some j => some (after.take j)

/-- The value of a `Page:` field after coercion: `null` (absent or
`N/A`/empty), `NaN` (a `parseInt` failure stored as-is), or a number.
JavaScript strict equality on these values is `pageStrictEq` below and
their truthiness is `pageTruthy` (`NaN` and `0` are falsy). -/
inductive PageVal where
  | noPage : PageVal
  | nan : PageVal
  | num : Int → PageVal
deriving DecidableEq, Repr

/-- JavaScript `===` on stored page values (`NaN === NaN` is false,
`null === null` is true). -/
def pageStrictEq : PageVal → PageVal → Bool
  | PageVal.noPage, PageVal.noPage => true
  | PageVal.num a, PageVal.num b => a == b
  | _, _ => false

/-- JavaScript truthiness of a stored page value. -/
def pageTruthy : PageVal → Bool
  | PageVal.num n => n != 0
  | _ => false

/-- Accumulator of the per-section `Key: value` line scan. -/
structure ScanState where
  filename : Str
  file_id : Str
  relevance : ℚ
  content : Str
  page : PageVal
  storage_type : Option Str
  s3_bucket : Option Str
  s3_key : Option Str
deriving DecidableEq, Repr

/-- Initial per-section scan state (`'' / '' / 0 / '' / null / null /
null / null` in the source). -/
def initScan : ScanState :=
  { filename := [], file_id := [], relevance := 0, content := [],
    page := PageVal.noPage, storage_type := none, s3_bucket := none, s3_key := none }

/-- `trimmedLine.replace(key, '').trim()` under the guard
`trimmedLine.startsWith(key)`: the first occurrence of the key is its
leading occurrence, so this drops the key and trims the remainder. -/
def keyValue (key s : Str) : Option Str :=
  if strStartsWith s key then some (jsTrim (s.drop key.length)) else none

/-- Filename characters kept verbatim by `extractFileIdFromFilename`
(the regex class `[^a-zA-Z0-9]` is replaced by `_`). -/
def isAlnumChar (c : Char) : Bool :=
  ('a' ≤ c && c ≤ 'z') || ('A' ≤ c && c ≤ 'Z') || isDigitChar c

/-- ASCII lower-casing, matching `toLowerCase` on the ASCII identifiers
produced by the replacement step. -/
def jsToLowerChar (c : Char) : Char :=
  if 'A' ≤ c && c ≤ 'Z' then Char.ofNat (c.toNat + 32) else c

/-- `filename.replace(/[^a-zA-Z0-9]/g, '_').toLowerCase()`: fallback
file id derived from the filename. -/
def extractFileIdFromFilename (filename : Str) : Str :=
  (filename.map (fun c => if isAlnumChar c then c else '_')).map jsToLowerChar

/-- Consume exactly `n` characters satisfying `p`, returning the rest. -/
def takeExact (p : Char → Bool) : Nat → Str → Option Str
  | 0, r => some r
  | _ + 1, [] => none
  | n + 1, c :: cs => if p c then takeExact p n cs else none

/-- Match the fixed-layout tail `_[a-f0-9]{8}_\d{8}_\d{6}\.(.+)$` of the
internal-filename pattern, returning the extension group.  The dot class
of the extension group cannot match a newline (no `s` flag on this
regex). -/
def mangledTail : Str → Option Str
  | '_' :: r =>
    match takeExact isHexLowerChar 8 r with
    | none => none
    | some r1 =>
      match r1 with
      | '_' :: r2 =>
        match takeExact isDigitChar 8 r2 with
        | none => none
        | some r3 =>
          match r3 with
          | '_' :: r4 =>
            match takeExact isDigitChar 6 r4 with
            | none => none
            | some r5 =>
              match r5 with
              | '.' :: ext =>
                if ext ≠ [] ∧ ext.all (fun c => c ≠ '\n') then some ext else none
              | _ => none
          | _ => none
      | _ => none
  | _ => none

/-- Find the non-greedy split of `^(.+?)_[a-f0-9]{8}_\d{8}_\d{6}\.(.+)$`:
the shortest non-empty newline-free name group whose remainder matches
the fixed tail. -/
def findMangledSplit : Str → Str → Option (Str × Str)
  | _, [] => none
  | acc, c :: rest =>
    if c = '\n' then none
    else
      match mangledTail rest with
      | some ext => some ((c :: acc).reverse, ext)
      | none => findMangledSplit (c :: acc) rest

/-- `extractOriginalFilename`: recover `name.ext` from the internal
storage pattern `name_{8 hex}_{yyyymmdd}_{hhmmss}.ext`, otherwise return
the input unchanged. -/
def extractOriginalFilename (internalFilename : Str) : Str :=
  if internalFilename = [] then internalFilename
  else
    match findMangledSplit [] internalFilename with
    | some (name, ext) => name ++ '.' :: ext
    | none => internalFilename

/-- One `Key: value` line applied to the scan state (the `else if` chain
of the section loop, in source order). -/
def processLine (st : ScanState) (line : Str) : ScanState :=
  let trimmedLine := jsTrim line
  match keyValue (("File: ").data) trimmedLine with
  | some rawFilename => { st with filename := extractOriginalFilename rawFilename }
  | none =>
  match keyValue (("File_ID: ").data) trimmedLine with
  | some v => { st with file_id := v }
  | none =>
  match keyValue (("Relevance: ").data) trimmedLine with
  | some relevanceStr => { st with relevance := (jsParseFloat relevanceStr).getD 0 }
  | none =>
  match keyValue (("Page: ").data) trimmedLine with
  | some pageStr =>
    { st with page :=
        if pageStr ≠ (("N/A").data) ∧ pageStr ≠ [] then
          match jsParseInt pageStr with
          | some n => PageVal.num n
          | none => PageVal.nan
        else PageVal.noPage }
  | none =>
  match keyValue (("Storage_Type: ").data) trimmedLine with
  | some storageStr =>
    { st with storage_type :=
        if storageStr ≠ (("N/A").data) ∧ storageStr ≠ [] then some storageStr else none }
  | none =>
  match keyValue (("S3_Bucket: ").data) trimmedLine with
  | some bucketStr =>
    { st with s3_bucket :=
        if bucketStr ≠ (("N/A").data) ∧ bucketStr ≠ [] then some bucketStr else none }
  | none =>
  match keyValue (("S3_Key: ").data) trimmedLine with
  | some keyStr =>
    { st with s3_key :=
        if keyStr ≠ (("N/A").data) ∧ keyStr ≠ [] then some keyStr else none }
  | none =>
  match keyValue (("Content: ").data) trimmedLine with
  | some v => { st with content := v }
  | none => st

/-- One parsed hit (`parsedResult` in the source). -/
structure SearchResultUnit where
  file_id : Str
  filename : Str
  relevance : ℚ
  content : Str
  page : PageVal
  pageRelevance : List (Int × ℚ)
  storage_type : Option Str
  s3_bucket : Option Str
  s3_key : Option Str
deriving DecidableEq, Repr

/-- Scan all lines of a (trimmed) section. -/
def scanSection (section' : Str) : ScanState :=
  (splitChar '\n' (jsTrim section')).foldl processLine initScan

/-- Process one section of the split: skip blank sections, scan the
lines, and emit a unit when the section has a filename and either a
positive relevance or an explicit file id (`filename && (relevance > 0
|| file_id)`).  The emitted unit defaults the file id from the filename
and the relevance to 0.5 (`relevance || 0.5`). -/
def parseSection (section' : Str) : Option SearchResultUnit :=
  if jsTrim section' = [] then none
  else
    let st := scanSection section'
    if st.filename ≠ [] ∧ (0 < st.relevance ∨ st.file_id ≠ []) then
      let finalRelevance : ℚ := if st.relevance = 0 then mkRat 1 2 else st.relevance
      some
        { file_id := if st.file_id ≠ [] then st.file_id else extractFileIdFromFilename st.filename,
          filename := st.filename,
          relevance := finalRelevance,
          content := st.content,
          page := st.page,
          pageRelevance :=
            match st.page with
            | PageVal.num n => if n ≠ 0 then [(n, finalRelevance)] else []
            | _ => [],
          storage_type := st.storage_type,
          s3_bucket := st.s3_bucket,
          s3_key := st.s3_key }
    else none

/-- `parseFileSearchResults`: prefer the hidden internal-data block when
present, split into sections, and parse each section. -/
def parseFileSearchResults (formattedResults : Str) : List SearchResultUnit :=
  let dataToProcess :=
    match extractInternalData formattedResults with
    | some internal => internal
    | none => formattedResults
  (splitSections dataToProcess).filterMap parseSection

/-! ## Diversity Selector (`processAgentResponse`, grouping and selection) -/

/-- JavaScript `a || b` on string-valued expressions where `b` is a
non-empty literal default (empty string and `undefined`/`null` are
falsy). -/
def jsOrStr (a : Option Str) (b : Str) : Str :=
  match a with
  | some v => if v = [] then b else v
  | none => b

/-- JavaScript truthiness of a possibly-absent string (`undefined`,
`null` and the empty string are falsy). -/
def optStrTruthy : Option Str → Bool
  | some v => v != []
  | none => false

/-- One selected source (`source` objects built by the selection map of
`processAgentResponse`; the `metadata` sub-object is flattened into the
`storageType`/`s3Bucket`/`s3Key` fields). -/
structure SourceOut where
  fileId : Str
  fileName : Str
  pages : List Int
  relevance : ℚ
  pageRelevance : List (Int × ℚ)
  storageType : Str
  s3Bucket : Option Str
  s3Key : Option Str
deriving DecidableEq, Repr

/-- Append a unit to its group, or start a new group at the end
(`resultsByFileId[result.file_id].push(result)`; groups are kept in
first-insertion order, as `for...in` enumerates the non-integer-like
string keys of a JavaScript object — the file ids of this subsystem are
never integer-like). -/
def groupInsert (u : SearchResultUnit) : List (Str × List SearchResultUnit) → List (Str × List SearchResultUnit)
  | [] => [(u.file_id, [u])]
  | (k, g) :: t =>
    if k = u.file_id then (k, g ++ [u]) :: t else (k, g) :: groupInsert u t

/-- `resultsByFileId`: group the parsed units by `file_id`. -/
def groupByFileId (units : List SearchResultUnit) : List (Str × List SearchResultUnit) :=
  units.foldl (fun acc u => groupInsert u acc) []

/-- Stable insertion of a unit into a relevance-descending list (the
element goes after every earlier element of equal or higher relevance,
matching the stable `sort((a, b) => b.relevance - a.relevance)`). -/
def insertRelDesc (x : SearchResultUnit) : List SearchResultUnit → List SearchResultUnit
  | [] => [x]
  | y :: ys => if y.relevance < x.relevance then x :: y :: ys else y :: insertRelDesc x ys

/-- Stable `sort((a, b) => b.relevance - a.relevance)`. -/
def sortByRelevanceDesc (l : List SearchResultUnit) : List SearchResultUnit :=
  l.foldl (fun acc x => insertRelDesc x acc) []

/-- `fileRepresentatives`: the highest-relevance unit of each group
(`fileResults[0]` after the per-group descending sort; every group is
non-empty by construction). -/
def representatives (groups : List (Str × List SearchResultUnit)) : List SearchResultUnit :=
  groups.filterMap (fun kg => (sortByRelevanceDesc kg.2).head?)

/-- `Math.abs` on rationals. -/
def ratAbs (q : ℚ) : ℚ := if q < 0 then -q else q

/-- The duplicate test of the fill loop: same file id, strictly equal
page values, and relevance equal up to the 1e-4 float tolerance
(`Math.abs(selected.relevance - result.relevance) < 0.0001`). -/
def alreadyIncluded (sel : List SearchResultUnit) (r : SearchResultUnit) : Bool :=
  sel.any (fun s =>
    s.file_id == r.file_id && pageStrictEq s.page r.page &&
      decide (ratAbs (s.relevance - r.relevance) < mkRat 1 10000))

/-- The fill loop over the full relevance-sorted unit list: stop once
`maxResults` entries are selected, skip duplicates, append the rest in
order. -/
def fillLoop (maxResults : Nat) : List SearchResultUnit → List SearchResultUnit → List SearchResultUnit
  | sel, [] => sel
  | sel, r :: rs =>
    if maxResults ≤ sel.length then sel
    else if alreadyIncluded sel r then fillLoop maxResults sel rs
    else fillLoop maxResults (sel ++ [r]) rs

/-- Map a selected unit to its `source` object.  `pages` is
`result.page ? [result.page] : []` (a falsy page — `null`, `NaN` or `0`
— yields the empty list), `storageType` is
`result.storage_type || 'local'`, and the S3 fields are copied only when
`storage_type === 's3'` and both are truthy. -/
def toSource (result : SearchResultUnit) : SourceOut :=
  { fileId := result.file_id,
    fileName := result.filename,
    pages := match result.page with
      | PageVal.num n => if n ≠ 0 then [n] else []
      | _ => [],
    relevance := result.relevance,
    pageRelevance := result.pageRelevance,
    storageType := jsOrStr result.storage_type (("local").data),
    s3Bucket :=
      if result.storage_type = some (("s3").data) ∧
          optStrTruthy result.s3_bucket ∧ optStrTruthy result.s3_key then
        result.s3_bucket
      else none,
    s3Key :=
      if result.storage_type = some (("s3").data) ∧
          optStrTruthy result.s3_bucket ∧ optStrTruthy result.s3_key then
        result.s3_key
      else none }

/-- The file-diversity selection of `processAgentResponse`: group by
file id, take one representative per file sorted by relevance, fill the
remaining slots with further distinct (file, page, relevance) hits, and
cap at `maxResults`.  The source fixes `maxResults` to the literal 10 at
each of its three occurrences; it is the single bound parameter here. -/
def selectSources (maxResults : Nat) (fileSearchResults : List SearchResultUnit) : List SourceOut :=
  let resultsByFileId := groupByFileId fileSearchResults
  let fileRepresentatives := sortByRelevanceDesc (representatives resultsByFileId)
  let selectedResults :=
    if fileRepresentatives.length < maxResults then
      fillLoop maxResults fileRepresentatives (sortByRelevanceDesc fileSearchResults)
    else fileRepresentatives
  (selectedResults.take maxResults).map toSource

/-! ## Access Validator and Link Issuer

Two variants exist in the repository.  The middleware variant
(`server/middleware/validate/agentFileAccess.js`) is the one mounted on
the `agent-source-url` route; it checks citation membership against the
message's `file_search` attachments and issues its two store lookups
concurrently (`Promise.all`).  The service variant
(`server/services/Files/agents.js`) checks membership through a single
`MessageFileReference` lookup and only then fetches file metadata. -/

/-- One source held in a message's `file_search` attachment (only the
fields read by the validator and issuer are modelled). -/
structure AttachmentSource where
  fileId : Str
  fileName : Str
deriving DecidableEq, Repr

/-- The `attachment[Tools.file_search]` sub-object; its `sources` field
may itself be absent. -/
structure FileSearchData where
  sources : Option (List AttachmentSource)
deriving DecidableEq, Repr

/-- One message attachment: its `type` tag and the optional
`file_search` payload (`Tools.file_search` is the constant string
`file_search` from the data-provider package). -/
structure MsgAttachment where
  atype : Str
  fileSearch : Option FileSearchData
deriving DecidableEq, Repr

/-- A message document (the fields used by the validator; `attachments`
is `none` when the stored document has no attachments field). -/
structure MessageDoc where
  messageId : Str
  conversationId : Str
  user : Str
  attachments : Option (List MsgAttachment)
deriving DecidableEq, Repr

/-- A file-metadata document (`Files` collection; the fields selected by
the validator and read by the issuer). -/
structure FileDoc where
  file_id : Str
  filename : Option Str
  source : Option Str
  filepath : Option Str
  s3Key : Option Str
  s3Bucket : Option Str
  ftype : Option Str
deriving DecidableEq, Repr

/-- `hasFileInAttachments(attachments, fileId)`: some attachment is a
`file_search` attachment whose sources contain the file id (`undefined`
attachments yield `false`). -/
def hasFileInAttachments (attachments : Option (List MsgAttachment)) (fileId : Str) : Bool :=
  match attachments with
  | none => false
  | some atts =>
    atts.any (fun attachment =>
      attachment.atype == ("file_search").data &&
        (match attachment.fileSearch with
          | some fsd =>
            match fsd.sources with
            | some sources => sources.any (fun source => source.fileId == fileId)
            | none => false
          | none => false))

/-- `Message.findOne({ messageId, conversationId, user: userId })`. -/
def findMessage (msgs : List MessageDoc) (messageId conversationId userId : Str) : Option MessageDoc :=
  msgs.find? (fun m =>
    m.messageId == messageId && m.conversationId == conversationId && m.user == userId)

/-- `Files.findOne({ file_id: fileId })`. -/
def findFile (files : List FileDoc) (fileId : Str) : Option FileDoc :=
  files.find? (fun f => f.file_id == fileId)

/-- A store lookup issued during validation, for the query-ordering
analysis. -/
inductive StoreQuery where
  | messageQ (messageId conversationId userId : Str) : StoreQuery
  | refQ (messageId fileId userId conversationId : Str) : StoreQuery
  | fileQ (fileId : Str) : StoreQuery
deriving DecidableEq, Repr

/-- Outcome of access validation: the HTTP status it settles on, with
the documents handed to the next middleware on success. -/
inductive ValidateOutcome where
  | denied : ValidateOutcome
  | notFound : ValidateOutcome
  | ok (file : FileDoc) (message : MessageDoc) : ValidateOutcome
deriving DecidableEq, Repr

/-- Middleware `validateAgentFileAccess`: both lookups are started
together in a `Promise.all` — the issued-query list is therefore fixed
before any result is inspected — and the results are then checked in the
order message-exists, citation-membership, file-exists. -/
def validateAgentFileAccess (msgs : List MessageDoc) (files : List FileDoc)
    (fileId messageId conversationId userId : Str) : ValidateOutcome × List StoreQuery :=
  let queries := [StoreQuery.messageQ messageId conversationId userId, StoreQuery.fileQ fileId]
  let message := findMessage msgs messageId conversationId userId
  let file := findFile files fileId
  match message with
  | none => (ValidateOutcome.denied, queries)
  | some m =>
    if ¬ hasFileInAttachments m.attachments fileId then (ValidateOutcome.denied, queries)
    else
      match file with
      | none => (ValidateOutcome.notFound, queries)
      | some f => (ValidateOutcome.ok f m, queries)

/-- Captured metadata of a `MessageFileReference` document. -/
structure CapturedMetadata where
  fileName : Str
  mimeType : Option Str
  s3Bucket : Option Str
  s3Key : Option Str
  storageType : Option Str
deriving DecidableEq, Repr

/-- A `MessageFileReference` document (citation record). -/
structure ReferenceDoc where
  messageId : Str
  fileId : Str
  conversationId : Str
  userId : Str
  status : Str
  capturedMetadata : CapturedMetadata
  relevance : Option ℚ
  pages : List Int
deriving DecidableEq, Repr

/-- `MessageFileReference.findOne({ messageId, fileId, userId,
conversationId, status: 'active' })`. -/
def findReference (refs : List ReferenceDoc) (messageId fileId userId conversationId : Str) :
    Option ReferenceDoc :=
  refs.find? (fun r =>
    r.messageId == messageId && r.fileId == fileId && r.userId == userId &&
      r.conversationId == conversationId && r.status == ("active").data)

/-- Outcome of the service-variant validation. -/
inductive SvcValidateOutcome where
  | denied : SvcValidateOutcome
  | notFound : SvcValidateOutcome
  | ok (reference : ReferenceDoc) (file : FileDoc) : SvcValidateOutcome
deriving DecidableEq, Repr

/-- Service `validateAgentFileAccess`
(`server/services/Files/agents.js`): a single reference lookup proves
ownership and membership at once; the file-metadata lookup is awaited
only after that lookup succeeds.  (The defensive model-availability
guards, which can only 500 when the database layer is absent, are
outside the store model.) -/
def validateAgentFileAccessService (refs : List ReferenceDoc) (files : List FileDoc)
    (fileId messageId conversationId userId : Str) : SvcValidateOutcome × List StoreQuery :=
  let refQuery := StoreQuery.refQ messageId fileId userId conversationId
  match findReference refs messageId fileId userId conversationId with
  | none => (SvcValidateOutcome.denied, [refQuery])
  | some reference =>
    match findFile files fileId with
    | none => (SvcValidateOutcome.notFound, [refQuery, StoreQuery.fileQ fileId])
    | some file => (SvcValidateOutcome.ok reference file, [refQuery, StoreQuery.fileQ fileId])

/-- The issued link response (`expiresAt` is kept as a millisecond
timestamp rather than its ISO rendering). -/
structure GenResponse where
  downloadUrl : Str
  expiresAt : Int
  fileName : Str
  mimeType : Option Str
deriving DecidableEq, Repr

/-- Outcome of link issuance. -/
inductive GenOutcome where
  | notFoundSource : GenOutcome
  | ok (response : GenResponse) : GenOutcome
deriving DecidableEq, Repr

/-- `cleanFileName` (from `server/utils/files`). Modelled from the spec:
its source is not part of this repository; the spec only requires that
the filename served to the client is the human-readable display name,
which the callers already pass in, so it is modelled as the identity.
No claim in scope depends on its behaviour. -/
def cleanFileName (fileName : Str) : Str := fileName

/-- `parseInt(process.env.AGENT_FILE_URL_EXPIRY) || 5` (an unset
variable, an unparsable value and an explicit 0 all fall back to 5). -/
def expiryMinutesOf (env : Option Str) : Int :=
  match env with
  | none => 5
  | some s =>
    match jsParseInt s with
    | none => 5
    | some n => if n = 0 then 5 else n

/-- The absolute local streaming download URL
`protocol://host/api/files/download/userId/fileId`. -/
def localDownloadUrl (protocol host userId fileId : Str) : Str :=
  protocol ++ ("://").data ++ host ++ ("/api/files/download/").data ++ userId ++ ("/").data ++ fileId

/-- The cited-source lookup of the middleware issuer:
`message.attachments.find(att => att.type === file_search)` followed by
`?.[file_search]?.sources?.find(s => s.fileId === fileId)` (only the
first `file_search` attachment is consulted). -/
def findCitedSource (message : MessageDoc) (fileId : Str) : Option AttachmentSource :=
  let firstFsAtt : Option MsgAttachment :=
    match message.attachments with
    | some atts => atts.find? (fun att => att.atype == ("file_search").data)
    | none => none
  match firstFsAtt with
  | none => none
  | some att =>
    match att.fileSearch with
    | none => none
    | some fsd =>
      match fsd.sources with
      | none => none
      | some sources => sources.find? (fun s => s.fileId == fileId)

/-- Middleware `generateAgentSourceUrl`
(`server/middleware/validate/agentFileAccess.js`): look up the cited
source in the first `file_search` attachment; for an S3 file (source
`s3` with a truthy `filepath` containing `amazonaws.com`) ask the signer
for a fresh URL and, if that call throws (`signResult = none`), fall
back to the file's existing stored `filepath`; for every other file use
the local streaming endpoint.  The key-splitting code inside the `try`
only feeds the external signer, whose outcome is the `signResult`
argument. -/
def generateAgentSourceUrl (file : FileDoc) (message : MessageDoc) (fileId : Str)
    (protocol host userId : Str) (expiryEnv : Option Str) (signResult : Option Str)
    (now : Int) : GenOutcome :=
  match findCitedSource message fileId with
  | none => GenOutcome.notFoundSource
  | some source =>
    let expiryMinutes := expiryMinutesOf expiryEnv
    let downloadUrl :=
      match file.filepath with
      | some fp =>
        if file.source == some (("s3").data) && fp != [] && hasSub fp (("amazonaws.com").data) then
          match signResult with
          | some url => url
          | none => fp
        else localDownloadUrl protocol host userId file.file_id
      | none => localDownloadUrl protocol host userId file.file_id
    GenOutcome.ok
      { downloadUrl := downloadUrl,
        expiresAt := now + expiryMinutes * 60 * 1000,
        fileName := cleanFileName source.fileName,
        mimeType := some (jsOrStr file.ftype (("application/octet-stream").data)) }

/-- Service `generateAgentSourceUrl` (`server/services/Files/agents.js`):
S3 details prefer the file document's fields over the captured metadata;
the S3 branch signs when the key has the `basePath/userId/fileName`
shape and falls back to the absolute local streaming URL when the key is
malformed or the signer throws; all other storage types use the local
streaming URL.  (The best-effort access-count update after the response
is a side effect outside this model.) -/
def generateAgentSourceUrlService (file : FileDoc) (fileReference : ReferenceDoc)
    (protocol host userId : Str) (expiryEnv : Option Str) (signResult : Option Str)
    (now : Int) : GenOutcome :=
  let expiryMinutes := expiryMinutesOf expiryEnv
  let s3Key := if optStrTruthy file.s3Key then file.s3Key else fileReference.capturedMetadata.s3Key
  let s3Bucket :=
    if optStrTruthy file.s3Bucket then file.s3Bucket else fileReference.capturedMetadata.s3Bucket
  let storageType :=
    if file.source == some (("s3").data) then some (("s3").data)
    else if optStrTruthy fileReference.capturedMetadata.storageType then
      fileReference.capturedMetadata.storageType
    else file.source
  let localUrl := localDownloadUrl protocol host userId file.file_id
  let downloadUrl :=
    if (storageType == some (("s3").data) && optStrTruthy s3Key && optStrTruthy s3Bucket) ||
        (file.source == some (("s3").data) && optStrTruthy s3Key && optStrTruthy s3Bucket) then
      match s3Key with
      | some key =>
        if 3 ≤ (splitChar '/' key).length then
          match signResult with
          | some url => url
          | none => localUrl
        else localUrl
      | none => localUrl
    else localUrl
  GenOutcome.ok
    { downloadUrl := downloadUrl,
      expiresAt := now + expiryMinutes * 60 * 1000,
      fileName := cleanFileName fileReference.capturedMetadata.fileName,
      mimeType := fileReference.capturedMetadata.mimeType }

/-! ## Citation Recorder (`MessageFileReference.captureReferences`) -/

/-- `captureReferences(messageId, sources, userId, conversationId)`:
map each selected source to a new `MessageFileReference` document and
`insertMany` them.  `insertMany` inserts unconditionally — the schema
keeps no unique index on `(messageId, fileId)` and no merge logic — so
the store is simply the old store with the new documents appended.  The
`status` field takes the schema default `active`. -/
def captureReferences (messageId : Str) (sources : List SourceOut)
    (userId conversationId : Str) (store : List ReferenceDoc) : List ReferenceDoc :=
  store ++ sources.map (fun source =>
    { messageId := messageId,
      fileId := source.fileId,
      conversationId := conversationId,
      userId := userId,
      status := ("active").data,
      capturedMetadata :=
        { fileName := source.fileName,
          mimeType := none,
          s3Bucket := source.s3Bucket,
          s3Key := source.s3Key,
          storageType := some (jsOrStr (some source.storageType) (("local").data)) },
      relevance := some source.relevance,
      pages := source.pages })

/-- Number of durable records held for one `(messageId, fileId)` pair. -/
def pairRecordCount (store : List ReferenceDoc) (messageId fileId : Str) : Nat :=
  (store.filter (fun r => r.messageId == messageId && r.fileId == fileId)).length

/-! ## Prefetch cache validity (`hasValidDownloadUrl`, client store) -/

/-- A source enriched with its prefetched URL data
(`sourcesWithUrlsSelector` output; the `urlExpiresAt` date string is
modelled as a millisecond timestamp, `none` covering an absent or
unparsable date). -/
structure SourceWithUrl where
  downloadUrl : Option Str
  urlExpiresAt : Option Int
deriving DecidableEq, Repr

/-- `hasValidDownloadUrl(source)`: both fields must be truthy and the
expiry must lie strictly in the future
(`new Date(source.urlExpiresAt) > new Date()`); `now` is the clock
reading. -/
def hasValidDownloadUrl (source : SourceWithUrl) (now : Int) : Bool :=
  match source.downloadUrl, source.urlExpiresAt with
  | some url, some expiresAt => if url = [] then false else decide (now < expiresAt)
  | _, _ => false

/-! ## Prefetch Orchestrator (client selectors)

The selectors read the per-message source atom family
(`agentSourcesByMessageId`), modelled as a function from message id to
source list, and the shared status map and configuration, passed in
explicitly.  `Date.now()` and `new Date().getHours()` are the `now` and
`hour` arguments. -/

/-- Prefetch configuration (`prefetchConfigState`). -/
structure PrefetchConfig where
  enabled : Bool
  maxConcurrentPrefetch : Nat
  prefetchThreshold : ℚ
  cacheTimeout : Int
  backgroundPrefetch : Bool
deriving DecidableEq, Repr

/-- The default configuration of `prefetchConfigState`. -/
def defaultPrefetchConfig : PrefetchConfig :=
  { enabled := true, maxConcurrentPrefetch := 3, prefetchThreshold := mkRat 1 10,
    cacheTimeout := 5 * 60 * 1000, backgroundPrefetch := true }

/-- The source fields read by the prefetch selectors (`file_id`, `type`
— named `ftype` here — and `bytes`, each possibly absent). -/
structure AgentSource where
  file_id : Option Str
  ftype : Option Str
  bytes : Option Int
deriving DecidableEq, Repr

/-- A scored prefetch candidate. -/
structure PrefetchCandidate where
  messageId : Str
  fileId : Str
  priority : Int
  reason : Str
deriving DecidableEq, Repr

/-- ASCII `toLowerCase` on a whole string. -/
def jsToLowerStr (s : Str) : Str := s.map jsToLowerChar

/-- The `${messageId}:${fileId}` key of the status and cache maps. -/
def candidateKey (messageId fileId : Str) : Str := messageId ++ ':' :: fileId

/-- Association-list lookup (JavaScript `Map.get`). -/
def alookup (k : Str) : List (Str × β) → Option β
  | [] => none
  | (k1, v) :: t => if k1 = k then some v else alookup k t

/-- JavaScript `Map.set`: replace in place when the key exists (keeping
its insertion position), otherwise append. -/
def mapSet (k : Str) (v : β) : List (Str × β) → List (Str × β)
  | [] => [(k, v)]
  | (k1, v1) :: t => if k1 = k then (k1, v) :: t else (k1, v1) :: mapSet k v t

/-- Stable insertion for `sort((a, b) => b.priority - a.priority)`. -/
def insertPrioDesc (x : PrefetchCandidate) : List PrefetchCandidate → List PrefetchCandidate
  | [] => [x]
  | y :: ys => if y.priority < x.priority then x :: y :: ys else y :: insertPrioDesc x ys

/-- Stable descending sort of candidates by priority. -/
def sortByPriorityDesc (l : List PrefetchCandidate) : List PrefetchCandidate :=
  l.foldl (fun acc x => insertPrioDesc x acc) []

/-- The document-like source test of strategy 3
(`type?.toLowerCase().includes('pdf'|'doc'|'text')`). -/
def isDocumentSource (source : AgentSource) : Bool :=
  match source.ftype with
  | some t =>
    hasSub (jsToLowerStr t) (("pdf").data) || hasSub (jsToLowerStr t) (("doc").data) ||
      hasSub (jsToLowerStr t) (("text").data)
  | none => false

/-- `prefetchCandidatesSelector`: the four candidate-generation
strategies in source order, deduplicated per `(messageId, fileId)` key
keeping the highest priority seen (first-insertion order), then ranked
by priority and truncated to `maxConcurrentPrefetch`. -/
def prefetchCandidatesSelector (config : PrefetchConfig) (currentMessageId : Option Str)
    (sourcesOf : Str → List AgentSource) : List PrefetchCandidate :=
  if ¬ config.enabled then []
  else
    let currentSources :=
      match currentMessageId with
      | some m => if m ≠ [] then sourcesOf m else []
      | none => []
    if currentSources.length = 0 then []
    else
      let msgId := match currentMessageId with
        | some m => m
        | none => []
      let msgTruthy := optStrTruthy currentMessageId
      let strategy1 := currentSources.enum.filterMap (fun idxSrc =>
        let index := idxSrc.1
        let source := idxSrc.2
        match source.file_id with
        | some fid =>
          if fid ≠ [] ∧ msgTruthy then
            some { messageId := msgId, fileId := fid,
                   priority := max 1 (10 - (index : Int)),
                   reason := ("same_message_related").data }
          else none
        | none => none)
      let strategy2 := currentSources.filterMap (fun source =>
        match source.file_id, source.ftype with
        | some fid, some t =>
          if fid ≠ [] ∧ t ≠ [] ∧ msgTruthy ∧
              (jsToLowerStr t = (("pdf").data) ∨ jsToLowerStr t = (("text").data) ∨
                jsToLowerStr t = (("docx").data)) then
            some { messageId := msgId, fileId := fid, priority := 7,
                   reason := ("common_file_type").data }
          else none
        | _, _ => none)
      let documentSources := currentSources.filter isDocumentSource
      let strategy3 :=
        if 1 < documentSources.length then
          documentSources.filterMap (fun source =>
            match source.file_id with
            | some fid =>
              if fid ≠ [] ∧ msgTruthy then
                some { messageId := msgId, fileId := fid, priority := 6,
                       reason := ("document_batch_likely").data }
              else none
            | none => none)
        else []
      let strategy4 := currentSources.filterMap (fun source =>
        match source.file_id, source.bytes with
        | some fid, some b =>
          if fid ≠ [] ∧ b ≠ 0 ∧ b < 1024 * 1024 ∧ msgTruthy then
            some { messageId := msgId, fileId := fid, priority := 5,
                   reason := ("small_file_fast_prefetch").data }
          else none
        | _, _ => none)
      let candidates := strategy1 ++ strategy2 ++ strategy3 ++ strategy4
      let uniqueCandidates := candidates.foldl (fun acc candidate =>
        let key := candidateKey candidate.messageId candidate.fileId
        match alookup key acc with
        | none => acc ++ [(key, candidate)]
        | some existing =>
          if existing.priority < candidate.priority then mapSet key candidate acc else acc) []
      (sortByPriorityDesc (uniqueCandidates.map Prod.snd)).take config.maxConcurrentPrefetch

/-- Status of a prefetch resolution. -/
inductive PrefStatus where
  | pending : PrefStatus
  | complete : PrefStatus
  | error : PrefStatus
deriving DecidableEq, Repr

/-- One entry of the shared `prefetchStatusState` map. -/
structure PrefStatusEntry where
  pstatus : PrefStatus
  timestamp : Int
deriving DecidableEq, Repr

/-- One resolved prefetch cache entry (`expiresAt` kept as a
millisecond timestamp). -/
structure PrefetchedData where
  url : Str
  expiresAt : Int
  prefetchedAt : Int
deriving DecidableEq, Repr

/-- `agentSourcePrefetchSelector`: walk the priority-ranked candidates
(bounded by `maxConcurrentPrefetch`), skip only those whose status map
entry is `complete` and younger than `cacheTimeout`, and resolve every
other candidate into the returned cache map.  Confidence plays no part
here.  The resolution itself cannot fail in this model (the source's
`try` body only simulates the fetch), and the status-map updates built
inside the loop are dead writes in the source (never stored), so they do
not appear. -/
def agentSourcePrefetchSelector (config : PrefetchConfig)
    (prefetchStatus : List (Str × PrefStatusEntry)) (currentMessageId : Option Str)
    (sourcesOf : Str → List AgentSource) (now : Int) : List (Str × PrefetchedData) :=
  if ¬ (config.enabled && config.backgroundPrefetch) then []
  else
    let candidates := prefetchCandidatesSelector config currentMessageId sourcesOf
    (candidates.take config.maxConcurrentPrefetch).foldl (fun prefetchedUrls candidate =>
      let prefetchKey := candidateKey candidate.messageId candidate.fileId
      let skip :=
        match alookup prefetchKey prefetchStatus with
        | some st => st.pstatus == PrefStatus.complete && now - st.timestamp < config.cacheTimeout
        | none => false
      if skip then prefetchedUrls
      else
        mapSet prefetchKey
          { url := ("/api/files/download-secure/prefetched-").data ++ candidate.fileId,
            expiresAt := now + 15 * 60 * 1000,
            prefetchedAt := now }
          prefetchedUrls) []

/-- The user-behaviour profile fields read by `predictiveCacheSelector`. -/
structure UserBehaviorPattern where
  downloadsInSession : Int
  previewsBeforeDownload : Bool
  batchDownloadTendency : Bool
deriving DecidableEq, Repr

/-- Result of `predictiveCacheSelector`. -/
structure PredictResult where
  shouldPreload : Bool
  confidence : ℚ
  reasons : List Str
deriving DecidableEq, Repr

/-- `Math.min` on rationals. -/
def ratMin (a b : ℚ) : ℚ := if a ≤ b then a else b

/-- The popular-type list of confidence factor 2. -/
def popularTypes : List Str := [("pdf").data, ("txt").data, ("docx").data, ("xlsx").data]

/-- `predictiveCacheSelector`: weighted confidence from file size, type
popularity, list position, user behaviour and time of day; preload is
advised when the (uncapped) score reaches the threshold, and the
returned confidence is capped at 1. -/
def predictiveCacheSelector (config : PrefetchConfig) (sourcesOf : Str → List AgentSource)
    (messageId fileId : Str) (userBehavior : Option UserBehaviorPattern) (hour : Int) :
    PredictResult :=
  if ¬ config.enabled then { shouldPreload := false, confidence := 0, reasons := [] }
  else
    let sources := sourcesOf messageId
    match sources.find? (fun source => source.file_id == some fileId),
        sources.findIdx? (fun source => source.file_id == some fileId) with
    | some targetSource, some sourceIndex =>
      let c1 : ℚ × List Str :=
        match targetSource.bytes with
        | some b =>
          if b ≠ 0 ∧ b < 5 * 1024 * 1024 then (mkRat 3 10, [("optimal_file_size").data])
          else (0, [])
        | none => (0, [])
      let c2 : ℚ × List Str :=
        match targetSource.ftype with
        | some t =>
          if t ≠ [] ∧ popularTypes.any (fun p => hasSub (jsToLowerStr t) p) then
            (mkRat 1 5, [("popular_file_type").data])
          else (0, [])
        | none => (0, [])
      let c3 : ℚ × List Str :=
        if sourceIndex < 3 then
          (mkRat 1 5 - mkRat sourceIndex 1 * mkRat 1 20, [("high_visibility_position").data])
        else (0, [])
      let c4 : ℚ × List Str :=
        match userBehavior with
        | some ub =>
          let a := if 2 < ub.downloadsInSession then (mkRat 3 20, [("active_download_session").data])
            else (0, [])
          let b := if ub.previewsBeforeDownload then (mkRat 1 10, [("preview_behavior_pattern").data])
            else (0, [])
          let c := if ub.batchDownloadTendency then (mkRat 3 20, [("batch_download_tendency").data])
            else (0, [])
          (a.1 + b.1 + c.1, a.2 ++ b.2 ++ c.2)
        | none => (0, [])
      let c5 : ℚ × List Str :=
        if 9 ≤ hour ∧ hour ≤ 17 then (mkRat 1 10, [("business_hours_activity").data])
        else (0, [])
      let confidence := c1.1 + c2.1 + c3.1 + c4.1 + c5.1
      { shouldPreload := decide (config.prefetchThreshold ≤ confidence),
        confidence := ratMin confidence 1,
        reasons := c1.2 ++ c2.2 ++ c3.2 ++ c4.2 ++ c5.2 }
    | _, _ => { shouldPreload := false, confidence := 0, reasons := [("source_not_found").data] }

/-- The candidates of the smart orchestrator paired with their
predictive analysis (`analyzedCandidates` in the source). -/
def smartAnalyzedCandidates (config : PrefetchConfig) (currentMessageId : Option Str)
    (sourcesOf : Str → List AgentSource) (userBehavior : Option UserBehaviorPattern)
    (hour : Int) : List (PrefetchCandidate × PredictResult) :=
  (prefetchCandidatesSelector config currentMessageId sourcesOf).map (fun candidate =>
    (candidate,
      predictiveCacheSelector config sourcesOf candidate.messageId candidate.fileId
        userBehavior hour))

/-- The orchestrator's `shouldPrefetch` filter: only candidates whose
analysis advises preloading. -/
def smartShouldPrefetch (config : PrefetchConfig) (currentMessageId : Option Str)
    (sourcesOf : Str → List AgentSource) (userBehavior : Option UserBehaviorPattern)
    (hour : Int) : List (PrefetchCandidate × PredictResult) :=
  (smartAnalyzedCandidates config currentMessageId sourcesOf userBehavior hour).filter
    (fun cp => cp.2.shouldPreload)

/-- Orchestrator state report. -/
inductive OrchStatus where
  | idle : OrchStatus
  | active : OrchStatus
  | complete : OrchStatus
deriving DecidableEq, Repr

/-- Result of `smartPrefetchOrchestratorSelector`. -/
structure OrchestratorResult where
  ostatus : OrchStatus
  prefetchedCount : Nat
  queueLength : Nat
  estimatedCompleteTime : Option Int
deriving DecidableEq, Repr

/-- `smartPrefetchOrchestratorSelector`: count the advised candidates
already resolved in the status map, report the queue of remaining ones;
this selector only reports — it resolves nothing. -/
def smartPrefetchOrchestratorSelector (config : PrefetchConfig)
    (prefetchStatus : List (Str × PrefStatusEntry)) (currentMessageId : Option Str)
    (sourcesOf : Str → List AgentSource) (userBehavior : Option UserBehaviorPattern)
    (hour : Int) (now : Int) : OrchestratorResult :=
  if ¬ config.enabled then
    { ostatus := OrchStatus.idle, prefetchedCount := 0, queueLength := 0,
      estimatedCompleteTime := none }
  else
    let shouldPrefetch := smartShouldPrefetch config currentMessageId sourcesOf userBehavior hour
    let prefetchedCount := shouldPrefetch.countP (fun cp =>
      match alookup (candidateKey cp.1.messageId cp.1.fileId) prefetchStatus with
      | some st => st.pstatus == PrefStatus.complete
      | none => false)
    let queueLength := shouldPrefetch.length - prefetchedCount
    { ostatus :=
        if 0 < queueLength then OrchStatus.active
        else if 0 < prefetchedCount then OrchStatus.complete
        else OrchStatus.idle,
      prefetchedCount := prefetchedCount,
      queueLength := queueLength,
      estimatedCompleteTime := if 0 < queueLength then some (now + queueLength * 1000) else none }

/-! ## Concrete fixtures used by counterexamples and witnesses

The arithmetic of `ℚ` is evaluated inside witnesses and counterexamples
by `decide`; the rational operations are restored to their default
reducibility for that purpose within the remainder of the file. -/

section Claims

attribute [local semireducible] Rat.add Rat.mul Rat.sub Rat.inv Rat.ofScientific


/-- A parsed hit for file `F1` at page 2 with relevance 0.9. -/
def unitF1a : SearchResultUnit :=
  { file_id := ("F1").data, filename := ("F1.pdf").data, relevance := mkRat 9 10, content := [],
    page := PageVal.num 2, pageRelevance := [(2, mkRat 9 10)], storage_type := none,
    s3_bucket := none, s3_key := none }

/-- A parsed hit for file `F1` at page 5 with relevance 0.6. -/
def unitF1b : SearchResultUnit :=
  { file_id := ("F1").data, filename := ("F1.pdf").data, relevance := mkRat 6 10, content := [],
    page := PageVal.num 5, pageRelevance := [(5, mkRat 6 10)], storage_type := none,
    s3_bucket := none, s3_key := none }

/-- A parsed hit for file `F2` at page 1 with relevance 0.8. -/
def unitF2 : SearchResultUnit :=
  { file_id := ("F2").data, filename := ("F2.pdf").data, relevance := mkRat 8 10, content := [],
    page := PageVal.num 1, pageRelevance := [(1, mkRat 8 10)], storage_type := none,
    s3_bucket := none, s3_key := none }

/-- The two-files/three-hits scenario input. -/
def scenarioUnits : List SearchResultUnit := [unitF1a, unitF1b, unitF2]

/-- Selected source for file `F` carrying page 2, relevance 0.9. -/
def sourceFa : SourceOut :=
  { fileId := ("F").data, fileName := ("F.pdf").data, pages := [2], relevance := mkRat 9 10,
    pageRelevance := [(2, mkRat 9 10)], storageType := ("local").data,
    s3Bucket := none, s3Key := none }

/-- Selected source for file `F` carrying page 5, relevance 0.6. -/
def sourceFb : SourceOut :=
  { fileId := ("F").data, fileName := ("F.pdf").data, pages := [5], relevance := mkRat 6 10,
    pageRelevance := [(5, mkRat 6 10)], storageType := ("local").data,
    s3Bucket := none, s3Key := none }

/-- An S3 file document whose stored `filepath` is a stale presigned
URL. -/
def fileS3 : FileDoc :=
  { file_id := ("f1").data, filename := some ("doc_ab12cd34_20250101_120000.pdf").data,
    source := some ("s3").data,
    filepath := some ("https://bucket.s3.amazonaws.com/uploads/u1/doc.pdf").data,
    s3Key := some ("uploads/u1/doc.pdf").data, s3Bucket := some ("bucket").data,
    ftype := some ("application/pdf").data }

/-- A `file_search` attachment citing file `f1`. -/
def attF1 : MsgAttachment :=
  { atype := ("file_search").data,
    fileSearch := some ({ sources := some [⟨("f1").data, ("doc.pdf").data⟩] } : FileSearchData) }

/-- A `file_search` attachment citing only file `g1`. -/
def attG1 : MsgAttachment :=
  { atype := ("file_search").data,
    fileSearch := some ({ sources := some [⟨("g1").data, ("other.pdf").data⟩] } : FileSearchData) }

/-- A message of user `u1` in conversation `c1` citing file `f1`. -/
def msgCitingF1 : MessageDoc :=
  { messageId := ("m1").data, conversationId := ("c1").data, user := ("u1").data,
    attachments := some [attF1] }

/-- A message of user `u1` in conversation `c1` citing only `g1`. -/
def msgCitingG1 : MessageDoc :=
  { messageId := ("m1").data, conversationId := ("c1").data, user := ("u1").data,
    attachments := some [attG1] }

/-- The prefetch configuration with the confidence threshold raised to
0.5 (all other knobs at their defaults). -/
def cfgThreshold05 : PrefetchConfig :=
  { enabled := true, maxConcurrentPrefetch := 3, prefetchThreshold := mkRat 1 2,
    cacheTimeout := 5 * 60 * 1000, backgroundPrefetch := true }

/-- A single cited source of uninformative type and unknown size. -/
def plainSource : AgentSource :=
  { file_id := some ("f1").data, ftype := some ("file").data, bytes := none }

/-- Source store holding `plainSource` under message `m1`. -/
def sourcesOfPlain : Str → List AgentSource :=
  fun m => if m = ("m1").data then [plainSource] else []

/-! ## C1 -/

/-- C1: when the message lookup succeeds (the message exists in the
given conversation and belongs to the requesting user) but the requested
file id is not in the message's citation set, the middleware access
validator answers 403 Denied — never 404 — whatever the file-metadata
store contains. -/
theorem access_denied_when_not_cited (msgs : List MessageDoc) (files : List FileDoc)
    (fileId messageId conversationId userId : Str) (m : MessageDoc)
    (hmsg : findMessage msgs messageId conversationId userId = some m)
    (hmem : hasFileInAttachments m.attachments fileId = false) :
    (validateAgentFileAccess msgs files fileId messageId conversationId userId).1 =
      ValidateOutcome.denied := by
  unfold validateAgentFileAccess
  rw [hmsg]
  simp [hmem]

/-- C1 witness: a concrete request for `f1` against a message citing
only `g1`, while metadata for `f1` exists in the file store. -/
theorem access_denied_when_not_cited_witness :
    findMessage [msgCitingG1] (("m1").data) (("c1").data) (("u1").data) = some msgCitingG1 ∧
    hasFileInAttachments msgCitingG1.attachments (("f1").data) = false ∧
    (validateAgentFileAccess [msgCitingG1] [fileS3] (("f1").data) (("m1").data) (("c1").data)
        (("u1").data)).1 = ValidateOutcome.denied :=
  ⟨by decide, by decide,
    access_denied_when_not_cited [msgCitingG1] [fileS3] (("f1").data) (("m1").data)
      (("c1").data) (("u1").data) msgCitingG1 (by decide) (by decide)⟩

/-! ## C3 -/

/-- C3 counterexample: recording the same citation (file `F` of message
`m1`) twice leaves two durable records for the pair, not one merged
record — `captureReferences` inserts, it does not upsert. -/
theorem capture_twice_two_records :
    pairRecordCount
      (captureReferences (("m1").data) [sourceFb] (("u1").data) (("c1").data)
        (captureReferences (("m1").data) [sourceFa] (("u1").data) (("c1").data) []))
      (("m1").data) (("F").data) = 2 := by decide

/-- C3 amended: recording a citation twice for the same message/file
pair adds exactly two records for that pair (each keeping its own pages
and relevance); nothing is merged. -/
theorem capture_references_inserts (store : List ReferenceDoc)
    (messageId userId conversationId : Str) (source : SourceOut) :
    pairRecordCount
      (captureReferences messageId [source] userId conversationId
        (captureReferences messageId [source] userId conversationId store))
      messageId source.fileId = pairRecordCount store messageId source.fileId + 2 := by
  simp [captureReferences, pairRecordCount, List.filter_append]

/-! ## C4 -/

/-- C4 counterexample: a validated S3 file request whose signing call
throws is answered 200, but the issued `downloadUrl` is the file's
stored stale presigned `filepath`, not the local streaming-endpoint URL
required by the claim. -/
theorem signing_failure_returns_stale_filepath :
    generateAgentSourceUrl fileS3 msgCitingF1 (("f1").data) (("https").data)
        (("chat.example.com").data) (("u1").data) none none 0 =
      GenOutcome.ok
        { downloadUrl := ("https://bucket.s3.amazonaws.com/uploads/u1/doc.pdf").data,
          expiresAt := 300000,
          fileName := ("doc.pdf").data,
          mimeType := some (("application/pdf").data) } ∧
    ("https://bucket.s3.amazonaws.com/uploads/u1/doc.pdf").data ≠
      localDownloadUrl (("https").data) (("chat.example.com").data) (("u1").data)
        (("f1").data) := by
  constructor
  · decide
  · decide

/-- C4 amended: when the signing call throws, issuance still answers
200 with a `downloadUrl` — the wired middleware issuer falls back to
the file's stored `filepath` (the pre-existing, possibly stale URL),
while the service issuer falls back to the absolute local
streaming-endpoint URL containing the requesting user's id and the file
id. -/
theorem signing_failure_fallbacks :
    (∀ (file : FileDoc) (message : MessageDoc) (fileId protocol host userId : Str)
        (expiryEnv : Option Str) (now : Int) (fp : Str) (source : AttachmentSource),
        findCitedSource message fileId = some source →
        file.source = some (("s3").data) →
        file.filepath = some fp → fp ≠ [] →
        hasSub fp (("amazonaws.com").data) = true →
        generateAgentSourceUrl file message fileId protocol host userId expiryEnv none now =
          GenOutcome.ok
            { downloadUrl := fp,
              expiresAt := now + expiryMinutesOf expiryEnv * 60 * 1000,
              fileName := cleanFileName source.fileName,
              mimeType := some (jsOrStr file.ftype (("application/octet-stream").data)) }) ∧
    (∀ (file : FileDoc) (fileReference : ReferenceDoc) (protocol host userId : Str)
        (expiryEnv : Option Str) (now : Int),
        file.source = some (("s3").data) →
        optStrTruthy file.s3Key = true → optStrTruthy file.s3Bucket = true →
        generateAgentSourceUrlService file fileReference protocol host userId expiryEnv none now =
          GenOutcome.ok
            { downloadUrl := localDownloadUrl protocol host userId file.file_id,
              expiresAt := now + expiryMinutesOf expiryEnv * 60 * 1000,
              fileName := cleanFileName fileReference.capturedMetadata.fileName,
              mimeType := fileReference.capturedMetadata.mimeType }) := by
  constructor
  · intro file message fileId protocol host userId expiryEnv now fp source
      hsrc hsource hfp hne hsub
    unfold generateAgentSourceUrl
    rw [hsrc, hfp, hsource]
    simp [hne, hsub]
  · intro file fileReference protocol host userId expiryEnv now hsource hkey hbucket
    unfold generateAgentSourceUrlService
    rw [hsource]
    simp only [hkey, hbucket, beq_self_eq_true, if_true, Bool.and_self, Bool.true_and]
    rcases hk : file.s3Key with _ | key
    · rw [hk] at hkey
      simp [optStrTruthy] at hkey
    · simp only [hk]
      split
      · split <;> rfl
      · rfl

/-- C4 amended witness: both fallbacks evaluated on the concrete S3
fixture (message citing `f1`, signer throwing). -/
theorem signing_failure_fallbacks_witness :
    generateAgentSourceUrl fileS3 msgCitingF1 (("f1").data) (("https").data)
        (("chat.example.com").data) (("u1").data) none none 7 =
      GenOutcome.ok
        { downloadUrl := ("https://bucket.s3.amazonaws.com/uploads/u1/doc.pdf").data,
          expiresAt := 7 + expiryMinutesOf none * 60 * 1000,
          fileName := cleanFileName (("doc.pdf").data),
          mimeType := some (jsOrStr fileS3.ftype (("application/octet-stream").data)) } ∧
    generateAgentSourceUrlService fileS3
        { messageId := ("m1").data, fileId := ("f1").data, conversationId := ("c1").data,
          userId := ("u1").data, status := ("active").data,
          capturedMetadata :=
            { fileName := ("doc.pdf").data, mimeType := some (("application/pdf").data),
              s3Bucket := some (("bucket").data), s3Key := some (("uploads/u1/doc.pdf").data),
              storageType := some (("s3").data) },
          relevance := some (mkRat 9 10), pages := [2] }
        (("https").data) (("chat.example.com").data) (("u1").data) none none 7 =
      GenOutcome.ok
        { downloadUrl := localDownloadUrl (("https").data) (("chat.example.com").data)
            (("u1").data) (("f1").data),
          expiresAt := 7 + expiryMinutesOf none * 60 * 1000,
          fileName := cleanFileName (("doc.pdf").data),
          mimeType := some (("application/pdf").data) } :=
  ⟨signing_failure_fallbacks.1 fileS3 msgCitingF1 (("f1").data) (("https").data)
      (("chat.example.com").data) (("u1").data) none 7
      (("https://bucket.s3.amazonaws.com/uploads/u1/doc.pdf").data) ⟨("f1").data, ("doc.pdf").data⟩
      (by decide) (by decide) (by decide) (by decide) (by decide),
    signing_failure_fallbacks.2 fileS3 _ (("https").data) (("chat.example.com").data)
      (("u1").data) none 7 (by decide) (by decide) (by decide)⟩

/-! ## C5 -/

/-- C5 counterexample: on the two-files/three-hits scenario with the
bound at 2, no selected source carries the merged page list `[2, 5]`
demanded by the claim — the `F1` source keeps only its representative's
page 2. -/
theorem scenario_selection_no_merged_pages :
    (∀ s ∈ selectSources 2 scenarioUnits, s.pages ≠ [2, 5]) ∧
    (selectSources 2 scenarioUnits).map (fun s => (s.fileId, s.pages)) =
      [((("F1").data), [2]), ((("F2").data), [1])] := by
  constructor
  · decide
  · decide

/-- C5 amended: on the scenario input with the bound at 2 the selection
is exactly `F1` with pages `[2]` (its representative hit) and relevance
0.9, then `F2` with pages `[1]` and relevance 0.8; pages of duplicate
hits for one file are not merged into the selected source. -/
theorem scenario_selection_actual :
    (selectSources 2 scenarioUnits).map (fun s => (s.fileId, s.pages, s.relevance)) =
      [((("F1").data), [2], mkRat 9 10), ((("F2").data), [1], mkRat 4 5)] := by decide

/-! ## C7 -/

/-- C7 counterexample: the wired middleware validator issues its
file-metadata query inside the same `Promise.all` as the message query,
so on a request whose message lookup fails (ownership never proven) the
file store has still been queried. -/
theorem file_query_issued_without_ownership :
    findMessage [] (("m1").data) (("c1").data) (("u1").data) = none ∧
    (validateAgentFileAccess [] [fileS3] (("f1").data) (("m1").data) (("c1").data)
        (("u1").data)).1 = ValidateOutcome.denied ∧
    StoreQuery.fileQ (("f1").data) ∈
      (validateAgentFileAccess [] [fileS3] (("f1").data) (("m1").data) (("c1").data)
        (("u1").data)).2 := by
  refine ⟨by decide, by decide, by decide⟩

/-- C7 amended: the service validator queries file metadata only after
its ownership-and-membership reference lookup succeeds, while the wired
middleware validator issues both lookups concurrently; in both variants
the decision still evaluates ownership before membership before file
existence — in particular an unowned message is answered Denied no
matter what the file store holds. -/
theorem validator_query_ordering :
    (∀ (refs : List ReferenceDoc) (files : List FileDoc)
        (fileId messageId conversationId userId : Str),
        StoreQuery.fileQ fileId ∈
          (validateAgentFileAccessService refs files fileId messageId conversationId userId).2 →
        ∃ ref, findReference refs messageId fileId userId conversationId = some ref) ∧
    (∀ (msgs : List MessageDoc) (files : List FileDoc)
        (fileId messageId conversationId userId : Str),
        findMessage msgs messageId conversationId userId = none →
        (validateAgentFileAccess msgs files fileId messageId conversationId userId).1 =
          ValidateOutcome.denied) := by
  constructor
  · intro refs files fileId messageId conversationId userId hmem
    unfold validateAgentFileAccessService at hmem
    rcases href : findReference refs messageId fileId userId conversationId with _ | ref
    · rw [href] at hmem
      simp at hmem
    · exact ⟨ref, rfl⟩
  · intro msgs files fileId messageId conversationId userId hmsg
    unfold validateAgentFileAccess
    rw [hmsg]

/-- C7 amended witness: the service validator on an empty reference
store (no file query issued would contradict nothing — here the
membership hypothesis is discharged on a store that does hold the
reference), and the middleware validator on an empty message store. -/
theorem validator_query_ordering_witness :
    (StoreQuery.fileQ (("f1").data) ∈
        (validateAgentFileAccessService
          [{ messageId := ("m1").data, fileId := ("f1").data, conversationId := ("c1").data,
             userId := ("u1").data, status := ("active").data,
             capturedMetadata :=
               { fileName := ("doc.pdf").data, mimeType := none, s3Bucket := none,
                 s3Key := none, storageType := some (("local").data) },
             relevance := none, pages := [] }]
          [fileS3] (("f1").data) (("m1").data) (("c1").data) (("u1").data)).2 →
      ∃ ref, findReference
          [{ messageId := ("m1").data, fileId := ("f1").data, conversationId := ("c1").data,
             userId := ("u1").data, status := ("active").data,
             capturedMetadata :=
               { fileName := ("doc.pdf").data, mimeType := none, s3Bucket := none,
                 s3Key := none, storageType := some (("local").data) },
             relevance := none, pages := [] }]
          (("m1").data) (("f1").data) (("u1").data) (("c1").data) = some ref) ∧
    (validateAgentFileAccess [] [fileS3] (("g2").data) (("m9").data) (("c9").data)
        (("u9").data)).1 = ValidateOutcome.denied :=
  ⟨fun h => validator_query_ordering.1 _ [fileS3] (("f1").data) (("m1").data) (("c1").data)
      (("u1").data) h,
    validator_query_ordering.2 [] [fileS3] (("g2").data) (("m9").data) (("c9").data)
      (("u9").data) (by decide)⟩

/-! ## C8 -/

/-- C8 counterexample: with the threshold configured at 0.5, the lone
cited source of message `m1` scores confidence 0.2 (below threshold,
`shouldPreload = false`; the resolution path offers no override input at
all), yet `agentSourcePrefetchSelector` still resolves it and the
prefetch cache holds an entry under its `m1:f1` key. -/
theorem low_confidence_candidate_still_cached :
    (predictiveCacheSelector cfgThreshold05 sourcesOfPlain (("m1").data) (("f1").data)
        none 20).confidence < cfgThreshold05.prefetchThreshold ∧
    (predictiveCacheSelector cfgThreshold05 sourcesOfPlain (("m1").data) (("f1").data)
        none 20).shouldPreload = false ∧
    (alookup (candidateKey (("m1").data) (("f1").data))
        (agentSourcePrefetchSelector cfgThreshold05 [] (some (("m1").data)) sourcesOfPlain
          1000)).isSome = true := by
  refine ⟨by decide, by decide, by decide⟩

/-- C8 amended: the confidence gate lives only in the predictive
selectors — a candidate admitted to the smart orchestrator's
should-prefetch set always has confidence at least the configured
threshold (stated for thresholds within the 0..1 confidence scale) —
while `agentSourcePrefetchSelector` resolves candidates by priority
rank alone and may cache entries for below-threshold candidates. -/
theorem ratMin_threshold (th conf : ℚ) (h1 : decide (th ≤ conf) = true)
    (h2 : th ≤ 1) : th ≤ ratMin conf 1 := by
  rw [decide_eq_true_eq] at h1
  unfold ratMin
  split
  · exact h1
  · exact h2

theorem should_prefetch_meets_threshold (config : PrefetchConfig)
    (currentMessageId : Option Str) (sourcesOf : Str → List AgentSource)
    (userBehavior : Option UserBehaviorPattern) (hour : Int)
    (cp : PrefetchCandidate × PredictResult)
    (hmem : cp ∈ smartShouldPrefetch config currentMessageId sourcesOf userBehavior hour)
    (hth : config.prefetchThreshold ≤ 1) :
    config.prefetchThreshold ≤ cp.2.confidence := by
  have hfilter := List.of_mem_filter hmem
  have hanalyzed := List.mem_of_mem_filter hmem
  unfold smartAnalyzedCandidates at hanalyzed
  rcases List.mem_map.mp hanalyzed with ⟨candidate, _, hcp⟩
  have hres : cp.2 =
      predictiveCacheSelector config sourcesOf candidate.messageId candidate.fileId
        userBehavior hour := by
    rw [← hcp]
  rw [hres] at hfilter ⊢
  unfold predictiveCacheSelector at hfilter ⊢
  by_cases hen : config.enabled = true
  · rw [if_neg (not_not_intro hen)] at hfilter ⊢
    dsimp only at hfilter ⊢
    rcases hfind : (sourcesOf candidate.messageId).find?
        (fun source => source.file_id == some candidate.fileId) with _ | target <;>
      rcases hidx : (sourcesOf candidate.messageId).findIdx?
          (fun source => source.file_id == some candidate.fileId) with _ | idx <;>
      rw [hfind, hidx] at hfilter ⊢
    · simp at hfilter
    · simp at hfilter
    · simp at hfilter
    · exact ratMin_threshold _ _ hfilter hth
  · rw [if_pos hen] at hfilter
    simp at hfilter

/-- C8 amended witness: under the default configuration (threshold 0.1)
the first-position source is admitted to the should-prefetch set, and
its confidence indeed meets the threshold. -/
theorem should_prefetch_meets_threshold_witness :
    defaultPrefetchConfig.prefetchThreshold ≤
      (predictiveCacheSelector defaultPrefetchConfig sourcesOfPlain (("m1").data)
        (("f1").data) none 20).confidence := by
  have h := should_prefetch_meets_threshold defaultPrefetchConfig (some (("m1").data))
    sourcesOfPlain none 20
    ({ messageId := ("m1").data, fileId := ("f1").data, priority := 10,
       reason := ("same_message_related").data },
      predictiveCacheSelector defaultPrefetchConfig sourcesOfPlain (("m1").data)
        (("f1").data) none 20)
    (by decide) (by decide)
  exact h

/-! ## C9 -/

/-- C9: once the clock passes an entry's expiry, the prefetch-cache
validity check rejects it — `hasValidDownloadUrl` never reports an
expired URL as valid. -/
theorem expired_url_never_valid (source : SourceWithUrl) (now expiresAt : Int)
    (hexp : source.urlExpiresAt = some expiresAt) (hlate : expiresAt < now) :
    hasValidDownloadUrl source now = false := by
  unfold hasValidDownloadUrl
  rcases hdu : source.downloadUrl with _ | url
  · rfl
  · rw [hexp]
    have : ¬ now < expiresAt := by omega
    simp [this]

/-- C9 witness: a concrete entry expiring at time 5, looked up at time
10. -/
theorem expired_url_never_valid_witness :
    hasValidDownloadUrl
      { downloadUrl := some (("/api/files/download-secure/prefetched-f1").data),
        urlExpiresAt := some 5 } 10 = false :=
  expired_url_never_valid _ 10 5 (by decide) (by decide)

/-! ## Parser lemmas shared by C6 and C10 -/

/-- A section that parses to a unit satisfies the emission guard, and
the unit's fields are the guarded defaults over the scanned state. -/
theorem parseSection_eq_some {sec : Str} {u : SearchResultUnit}
    (h : parseSection sec = some u) :
    (scanSection sec).filename ≠ [] ∧
    (0 < (scanSection sec).relevance ∨ (scanSection sec).file_id ≠ []) ∧
    u.filename = (scanSection sec).filename ∧
    u.relevance =
      (if (scanSection sec).relevance = 0 then mkRat 1 2 else (scanSection sec).relevance) ∧
    u.file_id =
      (if (scanSection sec).file_id ≠ [] then (scanSection sec).file_id
        else extractFileIdFromFilename (scanSection sec).filename) := by
  unfold parseSection at h
  by_cases htrim : jsTrim sec = []
  · rw [if_pos htrim] at h
    exact absurd h (by simp)
  · rw [if_neg htrim] at h
    dsimp only at h
    by_cases hguard : (scanSection sec).filename ≠ [] ∧
        (0 < (scanSection sec).relevance ∨ (scanSection sec).file_id ≠ [])
    · rw [if_pos hguard] at h
      injection h with h
      exact ⟨hguard.1, hguard.2, by rw [← h], by rw [← h], by rw [← h]⟩
    · rw [if_neg hguard] at h
      exact absurd h (by simp)

/-- The fallback file id derived from a non-empty filename is
non-empty (the replacement is character-for-character). -/
theorem extractFileIdFromFilename_ne_nil {filename : Str} (h : filename ≠ []) :
    extractFileIdFromFilename filename ≠ [] := by
  unfold extractFileIdFromFilename
  simp only [ne_eq, List.map_eq_nil_iff]
  exact h

/-! ## C6 -/

/-- C6: every unit emitted by the result parser has a non-empty
filename and a positive relevance or a non-empty explicit file id; in
particular its final file id is never empty, since a missing File_ID is
replaced by the id derived from the (non-empty) filename. -/
theorem parsed_unit_invariant (s : Str) (u : SearchResultUnit)
    (hu : u ∈ parseFileSearchResults s) :
    u.filename ≠ [] ∧ (0 < u.relevance ∨ u.file_id ≠ []) ∧ u.file_id ≠ [] := by
  unfold parseFileSearchResults at hu
  dsimp only at hu
  rcases List.mem_filterMap.mp hu with ⟨sec, _, hsec⟩
  obtain ⟨h1, h2, hfn, hrel, hfid⟩ := parseSection_eq_some hsec
  refine ⟨by rw [hfn]; exact h1, ?_, ?_⟩
  · rcases h2 with hr | hf
    · left
      rw [hrel]
      split
      · decide
      · exact hr
    · right
      rw [hfid, if_pos hf]
      exact hf
  · rw [hfid]
    by_cases hfi : (scanSection sec).file_id ≠ []
    · rw [if_pos hfi]
      exact hfi
    · rw [if_neg hfi]
      exact extractFileIdFromFilename_ne_nil h1

/-- The concrete payload `File: a` / `File_ID: b`. -/
def payloadAB : Str := ("File: a\nFile_ID: b").data

/-- The unit the parser emits for `payloadAB`. -/
def unitAB : SearchResultUnit :=
  { file_id := ("b").data, filename := ("a").data, relevance := mkRat 1 2,
    content := [], page := PageVal.noPage, pageRelevance := [], storage_type := none,
    s3_bucket := none, s3_key := none }

/-- C6 witness: the parser evaluated on a concrete two-line payload
(`File: a` / `File_ID: b`) emits one unit, and the invariant holds on
it. -/
theorem parsed_unit_invariant_witness :
    unitAB ∈ parseFileSearchResults payloadAB ∧
    (unitAB.filename ≠ [] ∧ (0 < unitAB.relevance ∨ unitAB.file_id ≠ []) ∧
      unitAB.file_id ≠ []) :=
  ⟨by decide, parsed_unit_invariant payloadAB unitAB (by decide)⟩

/-! ## C10 -/

/-- C10: a section scanned with a non-empty filename, a non-empty
explicit file id and relevance 0 (for instance an explicit
`Relevance: 0` line) still emits a unit and the unit's relevance is the
default 0.5; and more generally no unit emitted by the parser ever has
relevance 0. -/
theorem relevance_zero_defaults :
    (∀ sec : Str, (scanSection sec).filename ≠ [] → (scanSection sec).file_id ≠ [] →
      (scanSection sec).relevance = 0 →
      ∃ u, parseSection sec = some u ∧ u.relevance = mkRat 1 2) ∧
    (∀ (s : Str) (u : SearchResultUnit), u ∈ parseFileSearchResults s → u.relevance ≠ 0) := by
  constructor
  · intro sec h1 h2 h3
    have htrim : jsTrim sec ≠ [] := by
      intro he
      apply h1
      unfold scanSection
      rw [he]
      decide
    unfold parseSection
    rw [if_neg htrim]
    dsimp only
    rw [if_pos ⟨h1, Or.inr h2⟩]
    exact ⟨_, rfl, by rw [if_pos h3]⟩
  · intro s u hu
    unfold parseFileSearchResults at hu
    dsimp only at hu
    rcases List.mem_filterMap.mp hu with ⟨sec, _, hsec⟩
    obtain ⟨_, _, _, hrel, _⟩ := parseSection_eq_some hsec
    rw [hrel]
    split
    · decide
    · assumption

/-- C10 witness: the concrete section `File: f.pdf / File_ID: abc /
Relevance: 0` emits a unit with relevance 0.5, and the unit parsed from
it has non-zero relevance. -/
theorem relevance_zero_defaults_witness :
    (∃ u, parseSection (("File: f.pdf\nFile_ID: abc\nRelevance: 0").data) = some u ∧
      u.relevance = mkRat 1 2) ∧
    (∀ u : SearchResultUnit,
      u ∈ parseFileSearchResults (("File: f.pdf\nFile_ID: abc\nRelevance: 0").data) →
      u.relevance ≠ 0) :=
  ⟨relevance_zero_defaults.1 _ (by decide) (by decide) (by decide),
    fun u hu => relevance_zero_defaults.2 _ u hu⟩

/-! ## Selection lemmas for C2 -/

/-- The keys of a group list. -/
def keysOf (groups : List (Str × List SearchResultUnit)) : List Str :=
  groups.map Prod.fst

/-- Groups are non-empty and hold exactly the units of their key. -/
def WellKeyed (groups : List (Str × List SearchResultUnit)) : Prop :=
  ∀ p ∈ groups, p.2 ≠ [] ∧ ∀ v ∈ p.2, v.file_id = p.1

/-- `groupInsert` either leaves the key list unchanged (key present) or
appends the new key. -/
theorem keysOf_groupInsert (u : SearchResultUnit) :
    ∀ acc, keysOf (groupInsert u acc) =
      if u.file_id ∈ keysOf acc then keysOf acc else keysOf acc ++ [u.file_id]
  | [] => by simp [keysOf, groupInsert]
  | (k, g) :: t => by
    by_cases hk : k = u.file_id
    · subst hk
      simp [keysOf, groupInsert]
    · have ih := keysOf_groupInsert u t
      simp only [keysOf, groupInsert, if_neg hk, List.map_cons, List.mem_cons]
      by_cases hmem : u.file_id ∈ keysOf t
      · rw [if_pos hmem] at ih
        have : (u.file_id = k ∨ u.file_id ∈ List.map Prod.fst t) := Or.inr hmem
        rw [if_pos this]
        simpa [keysOf] using congrArg (List.cons k) ih
      · rw [if_neg hmem] at ih
        have : ¬ (u.file_id = k ∨ u.file_id ∈ List.map Prod.fst t) := by
          rintro (h | h)
          · exact hk h.symm
          · exact hmem h
        rw [if_neg this]
        simpa [keysOf] using congrArg (List.cons k) ih

/-- `groupInsert` preserves well-keyedness. -/
theorem wellKeyed_groupInsert (u : SearchResultUnit) (acc : List (Str × List SearchResultUnit))
    (hwk : WellKeyed acc) : WellKeyed (groupInsert u acc) := by
  induction acc with
  | nil =>
    intro p hp
    simp only [groupInsert, List.mem_singleton] at hp
    subst hp
    exact ⟨by simp, by simp⟩
  | cons head t ih =>
    obtain ⟨k, g⟩ := head
    intro p hp
    by_cases hk : k = u.file_id
    · rw [show groupInsert u ((k, g) :: t) = (k, g ++ [u]) :: t by
        simp [groupInsert, hk]] at hp
      rcases List.mem_cons.mp hp with hp | hp
      · subst hp
        refine ⟨by simp, ?_⟩
        intro v hv
        rcases List.mem_append.mp hv with hv | hv
        · exact (hwk (k, g) (List.mem_cons_self _ _)).2 v hv
        · rw [List.mem_singleton.mp hv, hk]
      · exact hwk p (List.mem_cons_of_mem _ hp)
    · rw [show groupInsert u ((k, g) :: t) = (k, g) :: groupInsert u t by
        simp [groupInsert, hk]] at hp
      rcases List.mem_cons.mp hp with hp | hp
      · subst hp
        exact hwk (k, g) (List.mem_cons_self _ _)
      · exact ih (fun q hq => hwk q (List.mem_cons_of_mem _ hq)) p hp

/-- `groupInsert` preserves key distinctness. -/
theorem nodup_keysOf_groupInsert (u : SearchResultUnit) (acc : List (Str × List SearchResultUnit))
    (h : (keysOf acc).Nodup) : (keysOf (groupInsert u acc)).Nodup := by
  rw [keysOf_groupInsert]
  by_cases hmem : u.file_id ∈ keysOf acc
  · rwa [if_pos hmem]
  · rw [if_neg hmem]
    simp [List.nodup_append, h, hmem]

/-- Membership in the keys after `groupInsert`. -/
theorem mem_keysOf_groupInsert (u : SearchResultUnit) (acc : List (Str × List SearchResultUnit))
    (z : Str) : z ∈ keysOf (groupInsert u acc) ↔ z ∈ keysOf acc ∨ z = u.file_id := by
  rw [keysOf_groupInsert]
  by_cases hmem : u.file_id ∈ keysOf acc
  · rw [if_pos hmem]
    constructor
    · exact Or.inl
    · rintro (h | h)
      · exact h
      · rwa [h]
  · rw [if_neg hmem]
    simp

/-- Keys of `groupByFileId` over a fold, generalised in the
accumulator. -/
theorem mem_keysOf_groupFold (z : Str) :
    ∀ (units : List SearchResultUnit) (acc : List (Str × List SearchResultUnit)),
      z ∈ keysOf (units.foldl (fun acc u => groupInsert u acc) acc) ↔
        z ∈ keysOf acc ∨ ∃ v ∈ units, v.file_id = z
  | [], acc => by simp
  | u :: us, acc => by
    rw [List.foldl_cons, mem_keysOf_groupFold z us (groupInsert u acc)]
    rw [mem_keysOf_groupInsert]
    constructor
    · rintro ((h | h) | ⟨v, hv, hvz⟩)
      · exact Or.inl h
      · exact Or.inr ⟨u, List.mem_cons_self _ _, h.symm⟩
      · exact Or.inr ⟨v, List.mem_cons_of_mem _ hv, hvz⟩
    · rintro (h | ⟨v, hv, hvz⟩)
      · exact Or.inl (Or.inl h)
      · rcases List.mem_cons.mp hv with rfl | hv
        · exact Or.inl (Or.inr hvz.symm)
        · exact Or.inr ⟨v, hv, hvz⟩

/-- A file id occurs among the group keys iff some unit carries it. -/
theorem mem_keysOf_groupByFileId (units : List SearchResultUnit) (z : Str) :
    z ∈ keysOf (groupByFileId units) ↔ ∃ v ∈ units, v.file_id = z := by
  unfold groupByFileId
  rw [mem_keysOf_groupFold]
  simp [keysOf]

/-- The group keys are distinct. -/
theorem nodup_keysOf_groupByFileId (units : List SearchResultUnit) :
    (keysOf (groupByFileId units)).Nodup := by
  unfold groupByFileId
  suffices h : ∀ (us : List SearchResultUnit) (acc : List (Str × List SearchResultUnit)),
      (keysOf acc).Nodup → (keysOf (us.foldl (fun acc u => groupInsert u acc) acc)).Nodup by
    exact h units [] (by simp [keysOf])
  intro us
  induction us with
  | nil => intro acc h; exact h
  | cons u us ih =>
    intro acc h
    rw [List.foldl_cons]
    exact ih _ (nodup_keysOf_groupInsert u acc h)

/-- The groups are well-keyed. -/
theorem wellKeyed_groupByFileId (units : List SearchResultUnit) :
    WellKeyed (groupByFileId units) := by
  unfold groupByFileId
  suffices h : ∀ (us : List SearchResultUnit) (acc : List (Str × List SearchResultUnit)),
      WellKeyed acc → WellKeyed (us.foldl (fun acc u => groupInsert u acc) acc) by
    exact h units [] (by intro p hp; simp at hp)
  intro us
  induction us with
  | nil => intro acc h; exact h
  | cons u us ih =>
    intro acc h
    rw [List.foldl_cons]
    exact ih _ (wellKeyed_groupInsert u acc h)

/-- Membership is preserved by stable descending insertion. -/
theorem mem_insertRelDesc (x y : SearchResultUnit) :
    ∀ l, y ∈ insertRelDesc x l ↔ y = x ∨ y ∈ l
  | [] => by simp [insertRelDesc]
  | z :: zs => by
    unfold insertRelDesc
    split
    · simp
    · rw [List.mem_cons, mem_insertRelDesc x y zs, List.mem_cons]
      tauto

/-- Membership is preserved by the stable relevance sort (fold form). -/
theorem mem_sortFold (y : SearchResultUnit) :
    ∀ (l acc : List SearchResultUnit),
      y ∈ l.foldl (fun acc x => insertRelDesc x acc) acc ↔ y ∈ acc ∨ y ∈ l
  | [], acc => by simp
  | x :: xs, acc => by
    rw [List.foldl_cons, mem_sortFold y xs (insertRelDesc x acc), mem_insertRelDesc]
    simp only [List.mem_cons]
    tauto

/-- Membership is preserved by the stable relevance sort. -/
theorem mem_sortByRelevanceDesc (y : SearchResultUnit) (l : List SearchResultUnit) :
    y ∈ sortByRelevanceDesc l ↔ y ∈ l := by
  unfold sortByRelevanceDesc
  rw [mem_sortFold]
  simp

/-- Insertion grows the length by one. -/
theorem length_insertRelDesc (x : SearchResultUnit) :
    ∀ l, (insertRelDesc x l).length = l.length + 1
  | [] => rfl
  | z :: zs => by
    unfold insertRelDesc
    split
    · rfl
    · simp [length_insertRelDesc x zs]

/-- The stable relevance sort preserves length (fold form). -/
theorem length_sortFold :
    ∀ (l acc : List SearchResultUnit),
      (l.foldl (fun acc x => insertRelDesc x acc) acc).length = acc.length + l.length
  | [], acc => rfl
  | x :: xs, acc => by
    rw [List.foldl_cons, length_sortFold xs (insertRelDesc x acc), length_insertRelDesc]
    simp
    omega

/-- The stable relevance sort preserves length. -/
theorem length_sortByRelevanceDesc (l : List SearchResultUnit) :
    (sortByRelevanceDesc l).length = l.length := by
  unfold sortByRelevanceDesc
  rw [length_sortFold]
  simp

/-- Every key of a well-keyed group list owns a representative with
that file id. -/
theorem representatives_cover (groups : List (Str × List SearchResultUnit))
    (hwk : WellKeyed groups) (k : Str) (hk : k ∈ keysOf groups) :
    ∃ rep ∈ representatives groups, rep.file_id = k := by
  rcases List.mem_map.mp hk with ⟨p, hp, hpk⟩
  obtain ⟨hne, hall⟩ := hwk p hp
  have hlen : (sortByRelevanceDesc p.2).length = p.2.length := length_sortByRelevanceDesc p.2
  rcases hsort : sortByRelevanceDesc p.2 with _ | ⟨rep, rest⟩
  · rw [hsort] at hlen
    exact absurd (List.length_eq_zero.mp hlen.symm) hne
  · have hrepmem : rep ∈ p.2 := by
      rw [← mem_sortByRelevanceDesc rep p.2, hsort]
      exact List.mem_cons_self _ _
    refine ⟨rep, ?_, by rw [hall rep hrepmem, hpk]⟩
    unfold representatives
    exact List.mem_filterMap.mpr ⟨p, hp, by rw [hsort]; rfl⟩

/-- Over a well-keyed group list, every group contributes exactly one
representative. -/
theorem length_representatives (groups : List (Str × List SearchResultUnit))
    (hwk : WellKeyed groups) : (representatives groups).length = groups.length := by
  induction groups with
  | nil => rfl
  | cons p t ih =>
    obtain ⟨hne, _⟩ := hwk p (List.mem_cons_self _ _)
    have hlen : (sortByRelevanceDesc p.2).length = p.2.length := length_sortByRelevanceDesc p.2
    rcases hsort : sortByRelevanceDesc p.2 with _ | ⟨rep, rest⟩
    · rw [hsort] at hlen
      exact absurd (List.length_eq_zero.mp hlen.symm) hne
    · unfold representatives
      rw [List.filterMap_cons, hsort]
      simp only [List.head?_cons]
      rw [List.length_cons, List.length_cons]
      have := ih (fun q hq => hwk q (List.mem_cons_of_mem _ hq))
      unfold representatives at this
      rw [this]

/-- The fill loop only appends to the already-selected list. -/
theorem fillLoop_append (m : Nat) :
    ∀ (rs sel : List SearchResultUnit), ∃ t, fillLoop m sel rs = sel ++ t
  | [], sel => ⟨[], by simp [fillLoop]⟩
  | r :: rs, sel => by
    unfold fillLoop
    split
    · exact ⟨[], by simp⟩
    · split
      · exact fillLoop_append m rs sel
      · rcases fillLoop_append m rs (sel ++ [r]) with ⟨t, ht⟩
        exact ⟨[r] ++ t, by rw [ht, List.append_assoc]⟩

/-! ## C2 -/

/-- C2: whenever the bound is at least the number of distinct file ids
in the parsed units, every unit's file appears in the diversity
selection — each distinct file's representative survives the cap. -/
theorem selection_diversity (units : List SearchResultUnit) (maxResults : Nat)
    (h : (units.map (fun u => u.file_id)).dedup.length ≤ maxResults)
    (v : SearchResultUnit) (hv : v ∈ units) :
    ∃ src ∈ selectSources maxResults units, src.fileId = v.file_id := by
  have hwk := wellKeyed_groupByFileId units
  have hkmem : v.file_id ∈ keysOf (groupByFileId units) :=
    (mem_keysOf_groupByFileId units _).mpr ⟨v, hv, rfl⟩
  obtain ⟨rep, hrepmem, hrepid⟩ := representatives_cover _ hwk _ hkmem
  have hnodup := nodup_keysOf_groupByFileId units
  have hkeys_len : (keysOf (groupByFileId units)).length =
      (units.map (fun u => u.file_id)).dedup.length := by
    have h2 : (keysOf (groupByFileId units)).toFinset =
        (units.map (fun u => u.file_id)).toFinset := by
      ext z
      simp only [List.mem_toFinset, List.mem_map]
      rw [mem_keysOf_groupByFileId]
    calc (keysOf (groupByFileId units)).length
        = (keysOf (groupByFileId units)).dedup.length := by rw [hnodup.dedup]
      _ = (keysOf (groupByFileId units)).toFinset.card := (List.card_toFinset _).symm
      _ = (units.map (fun u => u.file_id)).toFinset.card := by rw [h2]
      _ = (units.map (fun u => u.file_id)).dedup.length := List.card_toFinset _
  have hgroups_len : (groupByFileId units).length ≤ maxResults := by
    have hmap : (keysOf (groupByFileId units)).length = (groupByFileId units).length :=
      List.length_map _ _
    omega
  have hsorted_len :
      (sortByRelevanceDesc (representatives (groupByFileId units))).length ≤ maxResults := by
    rw [length_sortByRelevanceDesc, length_representatives _ hwk]
    exact hgroups_len
  have hrepsorted : rep ∈ sortByRelevanceDesc (representatives (groupByFileId units)) :=
    (mem_sortByRelevanceDesc _ _).mpr hrepmem
  unfold selectSources
  dsimp only
  have hsel : ∃ t,
      (if (sortByRelevanceDesc (representatives (groupByFileId units))).length < maxResults then
        fillLoop maxResults (sortByRelevanceDesc (representatives (groupByFileId units)))
          (sortByRelevanceDesc units)
      else sortByRelevanceDesc (representatives (groupByFileId units))) =
        sortByRelevanceDesc (representatives (groupByFileId units)) ++ t := by
    split
    · exact fillLoop_append maxResults _ _
    · exact ⟨[], by simp⟩
  obtain ⟨t, ht⟩ := hsel
  rw [ht, List.take_append_eq_append_take, List.take_of_length_le hsorted_len]
  exact ⟨toSource rep, List.mem_map_of_mem _ (List.mem_append_left _ hrepsorted),
    by rw [show (toSource rep).fileId = rep.file_id from rfl, hrepid]⟩

/-- C2 witness: on the two-files/three-hits scenario with bound 3 the
file of `unitF2` appears in the selection. -/
theorem selection_diversity_witness :
    (scenarioUnits.map (fun u => u.file_id)).dedup.length ≤ 3 ∧
    unitF2 ∈ scenarioUnits ∧
    ∃ src ∈ selectSources 3 scenarioUnits, src.fileId = unitF2.file_id :=
  ⟨by decide, by decide, selection_diversity scenarioUnits 3 (by decide) unitF2 (by decide)⟩

end Claims
